import Mathlib

/-!
Verification of the jsoninja template engine (src/jsoninja/__init__.py)
against its natural-language specification.

The engine walks a tree of dicts, lists and scalars, replaces placeholder
tokens (default pattern: two opening braces, optional space, an identifier of
letters, digits and underscore, optional space, two closing braces) found in
string leaves and dict keys by caller-supplied values, and rewrites dict keys.

Modelling choices (shallow embedding):
- Python values are the inductive `Val`; Python strings are `List Char`.
- Replacement values are `Repl`: either a plain value or a zero-argument
  callable, modelled as an identifier together with the value it returns.
  Each callable invocation appends its identifier to a trace (second
  component of every scan result), which makes invocation counts and order
  observable (claim C4).
- Exceptions are the error type `Err`; every function that can raise returns
  `Except Err`.  The payloads carry exactly what the CPython messages carry.
- The regex engine is modelled by `CompiledPattern`: a matcher that attempts
  a match at the start of a string and returns the matched span (group 0),
  the single capture (group 1, `none` when the pattern has no groups) and the
  rest of the input.  `reFinditer` derives the leftmost, non-overlapping
  semantics of `re.finditer` from it.  `defaultMatchAt` implements the
  default pattern; `litMatchAt` implements a compiled literal pattern without
  capture groups (what `re.compile` returns on a plain literal such as
  "abc").  `re.compile` itself belongs to the Python standard library and is
  not modelled; a pre-compiled pattern enters the constructor unvalidated
  via `PatternArg.pattern`, exactly as in the source (lines 35-36).
- The scanner is structurally recursive over the tree, so termination for
  every finite tree is by construction (the deep copy at entry already
  requires the input to be finite/acyclic; Python RecursionError on very
  deep trees is a resource limit outside this model).
- `copy.deepcopy` is content-preserving, hence modelled as the identity on
  pure trees; aliasing and in-place mutation are memory-graph notions that a
  pure embedding cannot distinguish (relevant to claim C8).
- `str()` of a float is abstracted (floats are modelled as rationals): no
  claim stringifies a float.  `str()` of a container is likewise abstracted:
  containers never reach the leaf resolver (the walker recurses into them),
  and containers are unhashable as Python dict keys.
-/

namespace Jsoninja

/-- Python values that can appear in a template tree: scalars
(string, int, float, bool, None) and the two containers. -/
inductive Val where
  | str (s : List Char)
  | int (n : Int)
  | float (q : Rat)
  | bool (b : Bool)
  | null
  | list (xs : List Val)
  | dict (entries : List (Val × Val))

/-- A replacement value: a plain value or a zero-argument callable.
A callable carries an identifier (used in the invocation trace) and
the value it returns. -/
inductive Repl where
  | val (v : Val)
  | func (fid : Nat) (ret : Val)

/-- Exceptions the source can raise, with the payloads their messages carry.
`valueError` is "A template has not been loaded." (line 66);
`keyError name` is the missing-replacement error (line 226) and also the
payload of `dict.pop` on an absent key (line 256, unreachable);
`typeErrorReplaceArg` is `str.replace` receiving a non-string second
argument (line 231); `attributeError` is `.replace` on a non-string
(line 231); `indexError` is `match.group(1)` on a pattern without capture
groups (line 222); `typeErrorKey` is "Key replacement must be str, int,
float or bool (...)" (line 253), carrying only the value printed in the
parentheses; `typeErrorInit` is the constructor type check (line 41). -/
inductive Err where
  | valueError
  | keyError (name : List Char)
  | typeErrorReplaceArg
  | attributeError
  | indexError
  | typeErrorKey (valueKey : Val)
  | typeErrorInit

/-- One regex match: the matched span (group 0) and the single capture
(group 1), `none` when the pattern has no capture group. -/
structure RMatch where
  matched : List Char
  group1 : Option (List Char)
deriving DecidableEq

/-- A compiled pattern, reduced to the one capability the source uses:
attempt a match at the current position, returning the match and the rest
of the input.  Both concrete patterns below consume at least one character
on success. -/
structure CompiledPattern where
  matchAt : List Char → Option (RMatch × List Char)

/-- Scanning engine of `re.finditer`: leftmost, non-overlapping matches.
The fuel is the length of the string; every step either advances one
character or consumes a non-empty match. -/
def finditerFuel (mAt : List Char → Option (RMatch × List Char)) :
    Nat → List Char → List RMatch
  | 0, _ => []
  | _ + 1, [] => []
  | f + 1, c :: rest =>
    match mAt (c :: rest) with
    | some (m, after) => m :: finditerFuel mAt f after
    | none => finditerFuel mAt f rest

/-- Model of `pattern.finditer(s)` (source line 220). -/
def reFinditer (p : CompiledPattern) (s : List Char) : List RMatch :=
  finditerFuel p.matchAt s.length s

/-- Model of `pattern.match(s)` (source line 251): anchored at the start. -/
def reMatch (p : CompiledPattern) (s : List Char) : Option RMatch :=
  (p.matchAt s).map Prod.fst

/-- Character class of the default pattern capture: letters, digits and
underscore (ASCII, as in the regex class). -/
def isWordChar (c : Char) : Bool :=
  c.isAlpha || c.isDigit || c == '_'

/-- Matcher of the default pattern (source line 39): two opening braces,
an optional single space, one or more word characters, an optional single
space, two closing braces; group 1 is the identifier.  The optional spaces
are greedy; a leading space is only viable when a word character follows,
a trailing space only when the closing braces follow, which makes the
backtracking of the regex engine deterministic here. -/
def defaultMatchAt (s : List Char) : Option (RMatch × List Char) :=
  match s with
  | '{' :: '{' :: t =>
    let sp1 : List Char :=
      match t with
      | ' ' :: c :: _ => if isWordChar c then [' '] else []
      | _ => []
    let t1 := t.drop sp1.length
    let ident := t1.takeWhile isWordChar
    let t2 := t1.dropWhile isWordChar
    if ident.isEmpty then none
    else
      match t2 with
      | ' ' :: '}' :: '}' :: rest =>
        some (⟨'{' :: '{' :: (sp1 ++ ident ++ [' ', '}', '}']), some ident⟩, rest)
      | '}' :: '}' :: rest =>
        some (⟨'{' :: '{' :: (sp1 ++ ident ++ ['}', '}']), some ident⟩, rest)
      | _ => none
  | _ => none

/-- The default compiled pattern (source line 39). -/
def defaultPattern : CompiledPattern := ⟨defaultMatchAt⟩

/-- Matcher of a compiled literal pattern (for example `re.compile("abc")`):
matches exactly the literal, has no capture group. -/
def litMatchAt (lit : List Char) (s : List Char) : Option (RMatch × List Char) :=
  if !lit.isEmpty && lit.isPrefixOf s then
    some (⟨lit, none⟩, s.drop lit.length)
  else none

/-- A compiled literal pattern without capture groups. -/
def literalPattern (lit : List Char) : CompiledPattern := ⟨litMatchAt lit⟩

/-- Digits of a natural number, as Python prints them. -/
def natRepr (n : Nat) : List Char := Nat.toDigits 10 n

/-- Python `str()` of an int. -/
def intRepr (n : Int) : List Char :=
  if n < 0 then '-' :: natRepr n.natAbs else natRepr n.natAbs

/-- Python `str()` of a value, as used by `str(variable)` on line 220.
Floats and containers are abstracted (see the module comment): no
placeholder braces ever come from them in any claim. -/
def pyStr : Val → List Char
  | .str s => s
  | .int n => intRepr n
  | .float q => intRepr q.num ++ '.' :: natRepr q.den
  | .bool true => "True".data
  | .bool false => "False".data
  | .null => "None".data
  | .list _ => "<list>".data
  | .dict _ => "<dict>".data

/-- Lookup in the replacements dict (`replacements[variable_name]`,
`variable_name not in replacements`). -/
def lookupR : List (List Char × Repl) → List Char → Option Repl
  | [], _ => none
  | (k, r) :: rest, x => if k = x then some r else lookupR rest x

/-- Python `==` between a string (group 0 of a match) and an arbitrary
value, as in `match.group(0) == variable` (line 227): true only when the
value is that same string. -/
def strEqVal (s : List Char) : Val → Bool
  | .str t => decide (s = t)
  | _ => false

/-- Python `==` between dict keys.  Keys that occur in templates and key
renames are scalars; cross-type numeric equality quirks of Python
(1 == True) are not modelled and are unreachable in the claims. -/
def keyEq : Val → Val → Bool
  | .str a, .str b => decide (a = b)
  | .int a, .int b => decide (a = b)
  | .float a, .float b => decide (a = b)
  | .bool a, .bool b => decide (a = b)
  | .null, .null => true
  | _, _ => false

/-- Python `str.replace(old, new)`: replace every non-overlapping
occurrence of `old`, left to right.  Fuelled by the string length; the
`old` strings the engine passes (group 0 of a match) are never empty. -/
def listReplaceF (old new : List Char) : Nat → List Char → List Char
  | 0, s => s
  | _ + 1, [] => []
  | f + 1, c :: cs =>
    if !old.isEmpty && old.isPrefixOf (c :: cs) then
      new ++ listReplaceF old new f ((c :: cs).drop old.length)
    else
      c :: listReplaceF old new f cs

/-- Python `b.replace(old, new)`. -/
def listReplace (old new b : List Char) : List Char :=
  listReplaceF old new b.length b

/-- Result of `__get_replacement`: either the `_NoReplacement` sentinel or
a replacement (the partial/multi-token path always produces
`repl (.val (.str ...))`; the whole-token path returns the mapping entry
itself, possibly a callable). -/
inductive GetRes where
  | noRepl
  | repl (r : Repl)

/-- Loop body of `__get_replacement` (source lines 219-234) over the match
list, with `acc` the accumulated partial-replacement string (`none` while
`replacement` is still the `_NoReplacement` sentinel).
Per match: read group 1 (IndexError when the pattern has no group);
missing identifier raises KeyError under `rom`, otherwise the match is
skipped; a whole-token match (group 0 equals the whole variable) returns
the mapping entry immediately; otherwise the accumulator — initialised
from the variable, which must then be a string — has every occurrence of
group 0 replaced by the mapping entry, which `str.replace` requires to be
a string (TypeError otherwise, including for callables). -/
def grLoop (var : Val) (reps : List (List Char × Repl)) (rom : Bool)
    (acc : Option (List Char)) : List RMatch → Except Err GetRes
  | [] =>
    match acc with
    | none => .ok .noRepl
    | some s => .ok (.repl (.val (.str s)))
  | m :: ms =>
    match m.group1 with
    | none => .error .indexError
    | some name =>
      match lookupR reps name with
      | none =>
        if rom then .error (.keyError name) else grLoop var reps rom acc ms
      | some r =>
        if strEqVal m.matched var then .ok (.repl r)
        else
          let base : Except Err (List Char) :=
            match acc with
            | some b => .ok b
            | none =>
              match var with
              | .str s => .ok s
              | _ => .error .attributeError
          match base with
          | .error e => .error e
          | .ok b =>
            match r with
            | .val (.str new) =>
              grLoop var reps rom (some (listReplace m.matched new b)) ms
            | _ => .error .typeErrorReplaceArg

/-- Source `__get_replacement` (lines 198-234). -/
def get_replacement (p : CompiledPattern) (var : Val)
    (reps : List (List Char × Repl)) (rom : Bool) : Except Err GetRes :=
  grLoop var reps rom none (reFinditer p (pyStr var))

/-- Source `__apply_replacement` (lines 171-196), returning the value to
store at the call site (`none` when the sentinel came back and the site is
left untouched) together with the callable-invocation trace of this step. -/
def apply_replacement (p : CompiledPattern) (reps : List (List Char × Repl))
    (var : Val) (rom : Bool) : Except Err (Option Val × List Nat) :=
  match get_replacement p var reps rom with
  | .error e => .error e
  | .ok .noRepl => .ok (none, [])
  | .ok (.repl (.func fid ret)) => .ok (some ret, [fid])
  | .ok (.repl (.val v)) => .ok (some v, [])

/-- Python `isinstance(value, (str, int, float, bool))` (line 250). -/
def isPrimitive : Val → Bool
  | .str _ => true
  | .int _ => true
  | .float _ => true
  | .bool _ => true
  | _ => false

/-- Python `dict.pop(key)`: remove the entry and return its value. -/
def dictPop : List (Val × Val) → Val → Option (Val × List (Val × Val))
  | [], _ => none
  | (k, v) :: rest, x =>
    if keyEq k x then some (v, rest)
    else
      match dictPop rest x with
      | none => none
      | some (w, remaining) => some (w, (k, v) :: remaining)

/-- Python `d[key] = value`: overwrite in place when the key exists,
otherwise append at the end of the iteration order. -/
def dictAssign : List (Val × Val) → Val → Val → List (Val × Val)
  | [], k, v => [(k, v)]
  | (k0, v0) :: rest, k, v =>
    if keyEq k0 k then (k0, v) :: rest
    else (k0, v0) :: dictAssign rest k v

/-- The value printed in the TypeError of `__replace_keys`
(lines 251-252): group 1 of an anchored match on the original key when
the pattern matches and has groups, otherwise the key itself. -/
def valueKeyOf (p : CompiledPattern) (var : Val) : Val :=
  match var with
  | .str s =>
    match reMatch p s with
    | some m =>
      match m.group1 with
      | some g => .str g
      | none => var
    | none => var
  | _ => var

/-- Source `__replace_keys` (lines 236-257): for every collected key
replacement, in collection order, check the replacement is primitive
(TypeError otherwise), then `template[value] = template.pop(variable)`. -/
def replace_keys (p : CompiledPattern) (template : List (Val × Val)) :
    List (Val × Val) → Except Err (List (Val × Val))
  | [] => .ok template
  | (var, value) :: rest =>
    if isPrimitive value then
      match dictPop template var with
      | none => .error (.keyError (pyStr var))
      | some (orig, remaining) =>
        replace_keys p (dictAssign remaining value orig) rest
    else .error (.typeErrorKey (valueKeyOf p var))

mutual

/-- Source `__scan_node` (lines 144-169): recurse into lists and dicts,
resolve scalars as leaves.  The dict branch is `__scan_dict`
(lines 117-142) inlined: scan the entries (collecting key replacements)
then run `__replace_keys` once. -/
def scan_node (p : CompiledPattern) (reps : List (List Char × Repl))
    (rom : Bool) : Val → Except Err (Val × List Nat)
  | .list xs =>
    match scan_list p reps rom xs with
    | .error e => .error e
    | .ok (ys, t) => .ok (.list ys, t)
  | .dict es =>
    match scan_entries p reps rom [] es with
    | .error e => .error e
    | .ok (fs, krs, t) =>
      match replace_keys p fs krs with
      | .error e => .error e
      | .ok gs => .ok (.dict gs, t)
  | w =>
    match apply_replacement p reps w rom with
    | .error e => .error e
    | .ok (none, t) => .ok (w, t)
    | .ok (some u, t) => .ok (u, t)

/-- Source `__scan_list` (lines 93-115): scan every element in order. -/
def scan_list (p : CompiledPattern) (reps : List (List Char × Repl))
    (rom : Bool) : List Val → Except Err (List Val × List Nat)
  | [] => .ok ([], [])
  | x :: rest =>
    match scan_node p reps rom x with
    | .error e => .error e
    | .ok (y, t1) =>
      match scan_list p reps rom rest with
      | .error e => .error e
      | .ok (ys, t2) => .ok (y :: ys, t1 ++ t2)

/-- Loop of `__scan_dict` (lines 135-140): for each entry, first resolve
the key (storing a hit in the key-replacements dict `kr`), then scan the
value.  Returns the scanned entries, the final key-replacements dict and
the callable trace. -/
def scan_entries (p : CompiledPattern) (reps : List (List Char × Repl))
    (rom : Bool) (kr : List (Val × Val)) :
    List (Val × Val) →
      Except Err (List (Val × Val) × List (Val × Val) × List Nat)
  | [] => .ok ([], kr, [])
  | (k, v) :: rest =>
    match apply_replacement p reps k rom with
    | .error e => .error e
    | .ok (kres, t1) =>
      let kr2 : List (Val × Val) :=
        match kres with
        | some w => dictAssign kr k w
        | none => kr
      match scan_node p reps rom v with
      | .error e => .error e
      | .ok (v2, t2) =>
        match scan_entries p reps rom kr2 rest with
        | .error e => .error e
        | .ok (rest2, krF, t3) => .ok ((k, v2) :: rest2, krF, t1 ++ t2 ++ t3)

end

/-- Source `__scan_template` (lines 71-91): dispatch on the root; a root
that is neither list nor dict would hit `.items()` on a non-dict
(AttributeError). -/
def scan_template (p : CompiledPattern) (reps : List (List Char × Repl))
    (rom : Bool) (t : Val) : Except Err (Val × List Nat) :=
  match t with
  | .list _ => scan_node p reps rom t
  | .dict _ => scan_node p reps rom t
  | _ => .error .attributeError

/-- Python truthiness, for `if not template` (line 65). -/
def pyTruthy : Val → Bool
  | .str s => !s.isEmpty
  | .int n => decide (n ≠ 0)
  | .float q => decide (q ≠ 0)
  | .bool b => b
  | .null => false
  | .list xs => !xs.isEmpty
  | .dict es => !es.isEmpty

/-- Model of `copy.deepcopy` (line 68): content-preserving copy,
the identity on pure trees. -/
def deepcopy (v : Val) : Val := v

/-- Source `replace` (lines 43-69): reject a falsy template, deep-copy,
then scan.  The result carries the callable-invocation trace. -/
def replace (p : CompiledPattern) (template : Val)
    (reps : List (List Char × Repl)) (rom : Bool) :
    Except Err (Val × List Nat) :=
  if pyTruthy template then
    scan_template p reps rom (deepcopy template)
  else .error .valueError

/-- Argument of the constructor (source lines 22-41).  A string pattern is
compiled by the external regex engine and enters here as the compiled
result (`pattern`); `noneArg` is Python None; `other` is any value that is
neither str, nor Pattern, nor None. -/
inductive PatternArg where
  | pattern (p : CompiledPattern)
  | noneArg
  | other

/-- Source `__init__` (lines 22-41): a compiled pattern is accepted
without any validation (in particular its number of capture groups is not
checked); None selects the default pattern; any other type raises
TypeError. -/
def jsoninjaInit : PatternArg → Except Err CompiledPattern
  | .pattern p => .ok p
  | .noneArg => .ok defaultPattern
  | .other => .error .typeErrorInit

/-- Value substituted at a whole-token site for a mapping entry: the
entry itself, or the result of invoking it when it is a callable. -/
def replOutput : Repl → Val
  | .val v => v
  | .func _ ret => ret

/-- Callable-invocation trace contributed by resolving one whole-token
site with a mapping entry. -/
def replTrace : Repl → List Nat
  | .val _ => []
  | .func fid _ => [fid]

/-- String keys of a dict value, in iteration order (observation used to
state key-order facts decidably). -/
def strKeysOf : Val → List (List Char)
  | .dict es =>
    es.filterMap fun kv =>
      match kv.1 with
      | .str s => some s
      | _ => none
  | _ => []

/-- A match whose identifier has an entry in the replacement mapping. -/
def matchCovered (reps : List (List Char × Repl)) (m : RMatch) : Bool :=
  match m.group1 with
  | some g => (lookupR reps g).isSome
  | none => false

/-- A match whose identifier either is `x` or has an entry in the
mapping. -/
def matchAlmost (reps : List (List Char × Repl)) (x : List Char)
    (m : RMatch) : Bool :=
  match m.group1 with
  | some g => decide (g = x) || (lookupR reps g).isSome
  | none => false

/-- A match capturing exactly the identifier `x`. -/
def matchMentions (x : List Char) (m : RMatch) : Bool :=
  decide (m.group1 = some x)

/-- Every placeholder of the string has an entry in the mapping. -/
def strLeafCov (p : CompiledPattern) (reps : List (List Char × Repl))
    (s : List Char) : Bool :=
  (reFinditer p s).all (matchCovered reps)

/-- Every placeholder of the string is either `x` or covered, and no
covered placeholder is a whole-token match of the string (so resolution
cannot return before reaching an occurrence of `x`). -/
def strLeafAlmost (p : CompiledPattern) (reps : List (List Char × Repl))
    (x : List Char) (s : List Char) : Bool :=
  strLeafCov p reps s ||
  ((reFinditer p s).all (matchAlmost reps x) &&
   (reFinditer p s).all fun m => !matchCovered reps m || decide (m.matched ≠ s))

/-- Admissibility of a string leaf, depending on whether a missing
identifier `x` is being tracked. -/
def leafOk (p : CompiledPattern) (reps : List (List Char × Repl))
    (mx : Option (List Char)) (s : List Char) : Bool :=
  match mx with
  | none => strLeafCov p reps s
  | some x => strLeafAlmost p reps x s

/-- The `str()` form of the value contains no placeholder at all. -/
def scalarNoMatch (p : CompiledPattern) (v : Val) : Bool :=
  (reFinditer p (pyStr v)).isEmpty

mutual

/-- Well-behaved template node: string leaves satisfy `leafOk`, other
scalars (and all dict keys) contain no placeholder, containers are
well-behaved throughout. -/
def okTN (p : CompiledPattern) (reps : List (List Char × Repl))
    (mx : Option (List Char)) : Val → Bool
  | .str s => leafOk p reps mx s
  | .list xs => okTL p reps mx xs
  | .dict es => okTE p reps mx es
  | w => scalarNoMatch p w

/-- Well-behaved list of template nodes. -/
def okTL (p : CompiledPattern) (reps : List (List Char × Repl))
    (mx : Option (List Char)) : List Val → Bool
  | [] => true
  | x :: rest => okTN p reps mx x && okTL p reps mx rest

/-- Well-behaved dict entries: keys placeholder-free, values
well-behaved. -/
def okTE (p : CompiledPattern) (reps : List (List Char × Repl))
    (mx : Option (List Char)) : List (Val × Val) → Bool
  | [] => true
  | (k, v) :: rest =>
    scalarNoMatch p k && okTN p reps mx v && okTE p reps mx rest

end

mutual

/-- Some string leaf of the node contains a placeholder capturing `x`. -/
def occN (p : CompiledPattern) (x : List Char) : Val → Bool
  | .str s => (reFinditer p s).any (matchMentions x)
  | .list xs => occL p x xs
  | .dict es => occE p x es
  | _ => false

/-- Occurrence of `x` in a list of nodes. -/
def occL (p : CompiledPattern) (x : List Char) : List Val → Bool
  | [] => false
  | v :: rest => occN p x v || occL p x rest

/-- Occurrence of `x` in the values of dict entries. -/
def occE (p : CompiledPattern) (x : List Char) : List (Val × Val) → Bool
  | [] => false
  | (_, v) :: rest => occN p x v || occE p x rest

end

/-- Every replacement value in the mapping is a plain string (not a
container, number, boolean, None or callable). -/
def allString (reps : List (List Char × Repl)) : Bool :=
  reps.all fun pr =>
    match pr.2 with
    | .val (.str _) => true
    | _ => false

/-- Under the default pattern: every placeholder identifier occurring in
the template (in string leaves) has an entry in the mapping, no dict key
and no non-string scalar contains a placeholder. -/
def coveredTemplate (reps : List (List Char × Repl)) (t : Val) : Bool :=
  okTN defaultPattern reps none t

/-- Like `coveredTemplate` except that the single identifier `x` may be
missing, and no string leaf mentioning a covered whole-token placeholder
equals that placeholder (no early whole-token return can mask `x`). -/
def almostCoveredTemplate (reps : List (List Char × Repl)) (x : List Char)
    (t : Val) : Bool :=
  okTN defaultPattern reps (some x) t

/-- The identifier `x` occurs in a placeholder of some string leaf. -/
def occursIn (x : List Char) (t : Val) : Bool :=
  occN defaultPattern x t

/-- The template root is a container (list or dict). -/
def isTree : Val → Bool
  | .list _ => true
  | .dict _ => true
  | _ => false

/-- Scalar (non-container) value. -/
def isScalar : Val → Bool
  | .list _ => false
  | .dict _ => false
  | _ => true

mutual

/-- Structural shape equality: scalars correspond to scalars, lists to
lists of the same length pointwise, dicts to dicts with identical keys in
identical order and pointwise shape-equal values. -/
inductive SameShape : Val → Val → Prop where
  | scalar {v w : Val} :
      isScalar v = true → isScalar w = true → SameShape v w
  | list {xs ys : List Val} :
      SameShapeList xs ys → SameShape (.list xs) (.list ys)
  | dict {es fs : List (Val × Val)} :
      SameShapeEntries es fs → SameShape (.dict es) (.dict fs)

/-- Pointwise shape equality of node lists. -/
inductive SameShapeList : List Val → List Val → Prop where
  | nil : SameShapeList [] []
  | cons {x y : Val} {xs ys : List Val} :
      SameShape x y → SameShapeList xs ys →
        SameShapeList (x :: xs) (y :: ys)

/-- Pointwise shape equality of dict entries: identical key, shape-equal
value. -/
inductive SameShapeEntries :
    List (Val × Val) → List (Val × Val) → Prop where
  | nil : SameShapeEntries [] []
  | cons {k v w : Val} {es fs : List (Val × Val)} :
      SameShape v w → SameShapeEntries es fs →
        SameShapeEntries ((k, v) :: es) ((k, w) :: fs)

end

/-! Theorems. -/

/-- C10: substitution is single-pass.  A replacement value bound to a
whole-token placeholder is inserted verbatim and never rescanned: for
every value v (in particular one whose strings contain placeholder
syntax), the output contains v untouched and no missing-replacement error
is raised for identifiers inside v, even under the default fail policy.
The second conjunct shows the same for a key rename whose result is the
literal placeholder text of an unmapped identifier y. -/
theorem c10_single_pass_no_rescan :
    (∀ v : Val,
      replace defaultPattern
        (.dict [(.str "k".data, .str "{{x}}".data)])
        [("x".data, .val v)] true =
        .ok (.dict [(.str "k".data, v)], [])) ∧
    replace defaultPattern
      (.dict [(.str "{{x}}".data, .int 1)])
      [("x".data, .val (.str "{{y}}".data))] true =
      .ok (.dict [(.str "{{y}}".data, .int 1)], []) :=
  ⟨fun _ => rfl, rfl⟩

/-- C3 counterexample: the claim says a renamed key keeps the original
key position in iteration order.  In the code, `template.pop` removes the
old key and the assignment `template[value] = ...` appends at the end:
renaming the first key of a two-key dict puts it after the second key, so
the key order is ["b", "A"], not the claimed ["A", "b"]. -/
theorem c3_counterexample :
    replace defaultPattern
      (.dict [(.str "{{a}}".data, .int 1), (.str "b".data, .int 2)])
      [("a".data, .val (.str "A".data))] true =
      .ok (.dict [(.str "b".data, .int 2), (.str "A".data, .int 1)], []) ∧
    strKeysOf (.dict [(.str "b".data, .int 2), (.str "A".data, .int 1)]) ≠
      ["A".data, "b".data] :=
  ⟨rfl, by decide⟩

/-- C3 amended: key rewriting removes the old key at its position and
inserts the resolved key at the end of the iteration order (or overwrites
in place when the resolved key already exists); when multiple distinct
keys resolve to the same final key, the outcome is last-write-wins: here
both placeholder keys resolve to "K" and the final value under "K" is the
one of the later source key. -/
theorem c3_rename_appends_last_write_wins :
    replace defaultPattern
      (.dict [(.str "{{a}}".data, .int 1), (.str "b".data, .int 2)])
      [("a".data, .val (.str "A".data))] true =
      .ok (.dict [(.str "b".data, .int 2), (.str "A".data, .int 1)], []) ∧
    replace defaultPattern
      (.dict [(.str "{{a}}".data, .int 1), (.str "{{b}}".data, .int 2),
              (.str "c".data, .int 3)])
      [("a".data, .val (.str "K".data)), ("b".data, .val (.str "K".data))]
      true =
      .ok (.dict [(.str "c".data, .int 3), (.str "K".data, .int 2)], []) :=
  ⟨rfl, rfl⟩

/-- C4 counterexample: the claim says, within one object, the callable
resolving a value fires before the callable resolving the key of that
same object.  In `__scan_dict` the key is resolved first (line 137)
and the value second (line 140), so with callable 1 bound to the key
placeholder and callable 2 bound to the value placeholder the invocation
trace is [1, 2] — key before value, not value before key. -/
theorem c4_counterexample :
    replace defaultPattern
      (.dict [(.str "{{k}}".data, .str "{{v}}".data)])
      [("k".data, .func 1 (.str "K".data)),
       ("v".data, .func 2 (.str "V".data))] true =
      .ok (.dict [(.str "K".data, .str "V".data)], [1, 2]) ∧
    ([1, 2] : List Nat) ≠ [2, 1] :=
  ⟨rfl, by decide⟩

/-- C4 amended: every zero-argument callable replacement is invoked
exactly once per resolved whole-token occurrence (n occurrences cause n
invocations, results are not cached), in left-to-right template order,
with each entry resolving its key placeholder before its value
placeholder.  First conjunct: the callable bound to "password" is used
once as a value and once as a key, and the trace records exactly two
invocations (entry order).  Second conjunct: inside a single entry the
key callable (id 1) fires before the value callable (id 2). -/
theorem c4_once_per_occurrence_key_before_value :
    replace defaultPattern
      (.dict [(.str "password".data, .str "{{password}}".data),
              (.str "{{password}}".data, .str "password".data)])
      [("password".data, .func 7 (.str "secret".data))] true =
      .ok (.dict [(.str "password".data, .str "secret".data),
                  (.str "secret".data, .str "password".data)], [7, 7]) ∧
    replace defaultPattern
      (.dict [(.str "{{k}}".data, .str "{{v}}".data)])
      [("k".data, .func 1 (.str "K".data)),
       ("v".data, .func 2 (.str "V".data))] true =
      .ok (.dict [(.str "K".data, .str "V".data)], [1, 2]) :=
  ⟨rfl, rfl⟩

/-- C6 counterexample: the claim says a custom pattern lacking a capture
group makes construction fail and that no call on a successfully
constructed instance can fail because of the pattern configuration.  The
constructor accepts any pre-compiled pattern without validation
(source lines 35-36), so an instance built over the zero-group literal
pattern "abc" constructs successfully, and `replace` then fails at call
time with IndexError when `match.group(1)` is read (line 222). -/
theorem c6_counterexample :
    jsoninjaInit (.pattern (literalPattern "abc".data)) =
      .ok (literalPattern "abc".data) ∧
    replace (literalPattern "abc".data)
      (.dict [(.str "k".data, .str "abc".data)]) [] true =
      .error .indexError :=
  ⟨rfl, rfl⟩

/-- C6 amended: construction validates only the argument type — a value
that is neither str nor Pattern nor None raises TypeError at construction
(line 41), and None selects the default pattern; the number of capture
groups is not checked at construction, so a group-less pattern is
accepted and the failure surfaces only at call time (see the
counterexample). -/
theorem c6_construction_type_check_only :
    jsoninjaInit .other = .error .typeErrorInit ∧
    jsoninjaInit .noneArg = .ok defaultPattern :=
  ⟨rfl, rfl⟩

/-- C9 counterexample: the claim says the key-type failure carries the
identifier and the offending kind.  The TypeError of `__replace_keys`
(line 253) prints only the identifier: an array replacement and a null
replacement for the same key placeholder produce the identical error
value, so the offending kind is not carried. -/
theorem c9_counterexample :
    replace defaultPattern
      (.dict [(.str "{{list}}".data, .str "x".data)])
      [("list".data, .val (.list [.str "foo".data, .str "bar".data]))]
      true =
      .error (.typeErrorKey (.str "list".data)) ∧
    replace defaultPattern
      (.dict [(.str "{{list}}".data, .str "x".data)])
      [("list".data, .val .null)] true =
      .error (.typeErrorKey (.str "list".data)) :=
  ⟨rfl, rfl⟩

/-- C9 amended: for an object key that is a placeholder, a replacement
resolving to a string, integer, float or boolean is accepted and the key
is renamed to it, while a replacement resolving to an object, an array or
null raises TypeError carrying the identifier (but not the offending
kind). -/
theorem c9_key_type_check (r1 r2 : Val)
    (h1 : isPrimitive r1 = true) (h2 : isPrimitive r2 = false) :
    replace defaultPattern
      (.dict [(.str "{{k}}".data, .str "v".data)])
      [("k".data, .val r1)] true =
      .ok (.dict [(r1, .str "v".data)], []) ∧
    replace defaultPattern
      (.dict [(.str "{{k}}".data, .str "v".data)])
      [("k".data, .val r2)] true =
      .error (.typeErrorKey (.str "k".data)) := by
  constructor
  · cases r1 with
    | str s => rfl
    | int n => rfl
    | float q => rfl
    | bool b => rfl
    | null => exact absurd h1 (by simp [isPrimitive])
    | list xs => exact absurd h1 (by simp [isPrimitive])
    | dict es => exact absurd h1 (by simp [isPrimitive])
  · cases r2 with
    | str s => exact absurd h2 (by simp [isPrimitive])
    | int n => exact absurd h2 (by simp [isPrimitive])
    | float q => exact absurd h2 (by simp [isPrimitive])
    | bool b => exact absurd h2 (by simp [isPrimitive])
    | null => rfl
    | list xs => rfl
    | dict es => rfl

/-- C9 witness: the amended theorem applied at an integer replacement
(accepted, key renamed to the integer) and an array replacement
(rejected with the identifier-only TypeError). -/
theorem c9_witness :
    isPrimitive (.int 5) = true ∧ isPrimitive (.list []) = false ∧
    (replace defaultPattern
      (.dict [(.str "{{k}}".data, .str "v".data)])
      [("k".data, .val (.int 5))] true =
      .ok (.dict [(.int 5, .str "v".data)], []) ∧
    replace defaultPattern
      (.dict [(.str "{{k}}".data, .str "v".data)])
      [("k".data, .val (.list []))] true =
      .error (.typeErrorKey (.str "k".data))) :=
  ⟨rfl, rfl, c9_key_type_check (.int 5) (.list []) rfl rfl⟩

/-- C1: for every string leaf whose entire text is a single placeholder
matching the configured pattern (the matcher returns exactly one match
whose span is the whole string, capturing identifier x) and every mapping
with an entry for x, replace substitutes the mapped replacement value —
the result of invoking it when it is a callable — with its original type
preserved, never coerced to a string.  First conjunct: the node scanner
(applied by the walker to every leaf of any template) resolves such a
leaf to the replacement output; second conjunct: end to end through
replace, inside a one-entry object whose key contains no placeholder. -/
theorem c1_whole_token_type_preserved (s x k : List Char)
    (R : List (List Char × Repl)) (r : Repl)
    (hf : reFinditer defaultPattern s = [⟨s, some x⟩])
    (hk : reFinditer defaultPattern k = [])
    (hR : lookupR R x = some r) :
    scan_node defaultPattern R true (.str s) =
      .ok (replOutput r, replTrace r) ∧
    replace defaultPattern (.dict [(.str k, .str s)]) R true =
      .ok (.dict [(.str k, replOutput r)], replTrace r) := by
  cases r with
  | val v =>
    constructor
    · simp [scan_node, apply_replacement, get_replacement, pyStr, hf,
            grLoop, hR, strEqVal, replOutput, replTrace]
    · simp [replace, pyTruthy, deepcopy, scan_template, scan_node,
            scan_entries, apply_replacement, get_replacement, pyStr, hk, hf,
            grLoop, hR, strEqVal, replace_keys, replOutput, replTrace]
  | func fid ret =>
    constructor
    · simp [scan_node, apply_replacement, get_replacement, pyStr, hf,
            grLoop, hR, strEqVal, replOutput, replTrace]
    · simp [replace, pyTruthy, deepcopy, scan_template, scan_node,
            scan_entries, apply_replacement, get_replacement, pyStr, hk, hf,
            grLoop, hR, strEqVal, replace_keys, replOutput, replTrace]

/-- C1 witness: the leaf "{{name}}" is a whole-token match capturing
"name", mapped to an array value; the output leaf is that array,
type-preserved. -/
theorem c1_witness :
    scan_node defaultPattern
      [("name".data, .val (.list [.int 1, .bool true]))] true
      (.str "{{name}}".data) =
      .ok (replOutput (.val (.list [.int 1, .bool true])),
           replTrace (.val (.list [.int 1, .bool true]))) ∧
    replace defaultPattern
      (.dict [(.str "k".data, .str "{{name}}".data)])
      [("name".data, .val (.list [.int 1, .bool true]))] true =
      .ok (.dict [(.str "k".data,
            replOutput (.val (.list [.int 1, .bool true])))],
           replTrace (.val (.list [.int 1, .bool true]))) :=
  c1_whole_token_type_preserved "{{name}}".data "name".data "k".data
    [("name".data, .val (.list [.int 1, .bool true]))]
    (.val (.list [.int 1, .bool true])) rfl rfl rfl

/-- Helper: when no match spans the whole string, a successful run of the
resolution loop yields either the sentinel or a string — never a value of
another type (the whole-token early return is the only way a non-string
replacement can come back). -/
theorem grLoop_partial_string (s : List Char) (R : List (List Char × Repl))
    (rom : Bool) :
    ∀ (ms : List RMatch) (acc : Option (List Char)) (res : GetRes),
      (∀ m ∈ ms, m.matched ≠ s) →
      grLoop (.str s) R rom acc ms = .ok res →
      res = .noRepl ∨ ∃ out, res = .repl (.val (.str out)) := by
  intro ms
  induction ms with
  | nil =>
    intro acc res _ h
    cases acc with
    | none =>
      simp only [grLoop] at h
      injection h with h
      exact Or.inl h.symm
    | some b =>
      simp only [grLoop] at h
      injection h with h
      exact Or.inr ⟨b, h.symm⟩
  | cons m ms ih =>
    intro acc res hne h
    have hmne : m.matched ≠ s := hne m (List.mem_cons_self m ms)
    have htail : ∀ m2 ∈ ms, m2.matched ≠ s :=
      fun m2 hm2 => hne m2 (List.mem_cons_of_mem m hm2)
    cases hg : m.group1 with
    | none => simp [grLoop, hg] at h
    | some name =>
      cases hl : lookupR R name with
      | none =>
        cases rom with
        | true => simp [grLoop, hg, hl] at h
        | false =>
          simp only [grLoop, hg, hl, Bool.false_eq_true, if_false] at h
          exact ih acc res htail h
      | some r =>
        have hsv : strEqVal m.matched (.str s) = false := by
          simp [strEqVal, hmne]
        cases r with
        | val v =>
          cases v with
          | str w =>
            cases acc with
            | none =>
              simp only [grLoop, hg, hl, hsv, Bool.false_eq_true, if_false] at h
              exact ih _ res htail h
            | some b =>
              simp only [grLoop, hg, hl, hsv, Bool.false_eq_true, if_false] at h
              exact ih _ res htail h
          | int n => cases acc <;> simp [grLoop, hg, hl, hsv] at h
          | float q => cases acc <;> simp [grLoop, hg, hl, hsv] at h
          | bool b2 => cases acc <;> simp [grLoop, hg, hl, hsv] at h
          | null => cases acc <;> simp [grLoop, hg, hl, hsv] at h
          | list xs => cases acc <;> simp [grLoop, hg, hl, hsv] at h
          | dict es => cases acc <;> simp [grLoop, hg, hl, hsv] at h
        | func fid ret => cases acc <;> simp [grLoop, hg, hl, hsv] at h

/-- C2 amended: when one or more placeholders are embedded in a larger
string (no match spans the whole string) and resolution succeeds with a
replacement, that replacement is always a string — with string
replacements every token text is replaced by its mapped string (as in the
second conjunct, the "{{a}}-{{b}}" example yielding "x-y"); a non-string
or callable replacement used at such a partial position is NOT
stringified but raises TypeError (see the counterexample). -/
theorem c2_partial_token_always_string (s : List Char)
    (R : List (List Char × Repl)) (rom : Bool) (res : GetRes)
    (hnw : ∀ m ∈ reFinditer defaultPattern s, m.matched ≠ s)
    (hres : get_replacement defaultPattern (.str s) R rom = .ok res)
    (hnn : res ≠ .noRepl) :
    (∃ out, res = .repl (.val (.str out))) ∧
    replace defaultPattern
      (.dict [(.str "k".data, .str "{{a}}-{{b}}".data)])
      [("a".data, .val (.str "x".data)), ("b".data, .val (.str "y".data))]
      true =
      .ok (.dict [(.str "k".data, .str "x-y".data)], []) := by
  refine ⟨?_, rfl⟩
  simp only [get_replacement, pyStr] at hres
  rcases grLoop_partial_string s R rom (reFinditer defaultPattern s) none res
      hnw hres with h | h
  · exact absurd h hnn
  · exact h

/-- C2 counterexample: the claim says a matched token embedded in a
larger string has its replacement coerced to its string representation
even when it is a non-string.  The code passes the replacement directly
as the second argument of `str.replace` (line 231), which raises
TypeError for the integer 5 instead of stringifying it. -/
theorem c2_counterexample :
    replace defaultPattern
      (.dict [(.str "a".data, .str "x{{p}}y".data)])
      [("p".data, .val (.int 5))] true =
      .error .typeErrorReplaceArg :=
  rfl

/-- C2 witness: the leaf "n={{a}}" has one embedded (non-whole) match;
with a mapped string "x" the resolution result is the string "n=x". -/
theorem c2_witness :
    (∃ out, (GetRes.repl (.val (.str "n=x".data))) =
      .repl (.val (.str out))) ∧
    replace defaultPattern
      (.dict [(.str "k".data, .str "{{a}}-{{b}}".data)])
      [("a".data, .val (.str "x".data)), ("b".data, .val (.str "y".data))]
      true =
      .ok (.dict [(.str "k".data, .str "x-y".data)], []) :=
  c2_partial_token_always_string "n={{a}}".data
    [("a".data, .val (.str "x".data))] true
    (.repl (.val (.str "n=x".data))) (by decide) rfl nofun

/-- Helper: in an all-string mapping every successful lookup is a plain
string value. -/
theorem allString_lookup {R : List (List Char × Repl)}
    (hall : allString R = true) {g : List Char} {r : Repl}
    (h : lookupR R g = some r) : ∃ w, r = .val (.str w) := by
  induction R with
  | nil => simp [lookupR] at h
  | cons hd tl ih =>
    obtain ⟨k, r0⟩ := hd
    rw [allString, List.all_cons, Bool.and_eq_true] at hall
    obtain ⟨h1, h2⟩ := hall
    by_cases hk : k = g
    · rw [lookupR, if_pos hk] at h
      injection h with h
      subst h
      cases r0 with
      | val v =>
        cases v with
        | str w => exact ⟨w, rfl⟩
        | int n => simp at h1
        | float q => simp at h1
        | bool b => simp at h1
        | null => simp at h1
        | list xs => simp at h1
        | dict es => simp at h1
      | func fid ret => simp at h1
    · rw [lookupR, if_neg hk] at h
      exact ih h2 h

/-- Helper: with an all-string mapping and every match covered, the
resolution loop under the fail policy succeeds, returning the sentinel or
a string. -/
theorem grLoop_covered (s : List Char) (R : List (List Char × Repl))
    (hall : allString R = true) :
    ∀ (ms : List RMatch) (acc : Option (List Char)),
      ms.all (matchCovered R) = true →
      grLoop (.str s) R true acc ms = .ok .noRepl ∨
        ∃ out, grLoop (.str s) R true acc ms = .ok (.repl (.val (.str out))) := by
  intro ms
  induction ms with
  | nil =>
    intro acc _
    cases acc with
    | none => exact Or.inl rfl
    | some b => exact Or.inr ⟨b, rfl⟩
  | cons m ms ih =>
    intro acc hcov
    rw [List.all_cons, Bool.and_eq_true] at hcov
    obtain ⟨h1, h2⟩ := hcov
    cases hg : m.group1 with
    | none => simp [matchCovered, hg] at h1
    | some g =>
      simp only [matchCovered, hg] at h1
      obtain ⟨r, hr⟩ := Option.isSome_iff_exists.mp h1
      obtain ⟨w, hw⟩ := allString_lookup hall hr
      subst hw
      by_cases hwhole : m.matched = s
      · exact Or.inr ⟨w, by simp [grLoop, hg, hr, strEqVal, hwhole]⟩
      · have hsv : strEqVal m.matched (.str s) = false := by
          simp [strEqVal, hwhole]
        cases acc with
        | none =>
          have step : grLoop (.str s) R true none (m :: ms) =
              grLoop (.str s) R true (some (listReplace m.matched w s)) ms := by
            simp [grLoop, hg, hr, hsv]
          rw [step]
          exact ih _ h2
        | some b =>
          have step : grLoop (.str s) R true (some b) (m :: ms) =
              grLoop (.str s) R true (some (listReplace m.matched w b)) ms := by
            simp [grLoop, hg, hr, hsv]
          rw [step]
          exact ih _ h2

/-- Helper: matches all covered by the mapping cannot mention an
identifier with no entry. -/
theorem covered_no_mentions {R : List (List Char × Repl)} {x : List Char}
    (hx : lookupR R x = none) :
    ∀ ms : List RMatch, ms.all (matchCovered R) = true →
      ms.any (matchMentions x) = false := by
  intro ms
  induction ms with
  | nil => intro _; rfl
  | cons m ms ih =>
    intro hcov
    rw [List.all_cons, Bool.and_eq_true] at hcov
    obtain ⟨h1, h2⟩ := hcov
    have hm : matchMentions x m = false := by
      rw [matchMentions]
      by_cases hgx : m.group1 = some x
      · exfalso
        simp only [matchCovered, hgx] at h1
        rw [hx] at h1
        simp at h1
      · simp [hgx]
    simp [List.any_cons, hm, ih h2]

/-- Helper: with an all-string mapping, when every match either mentions
the missing identifier x or is covered, and no covered match spans the
whole string, the loop raises KeyError x as soon as any match mentions x,
and otherwise succeeds with the sentinel or a string. -/
theorem grLoop_almost (s x : List Char) (R : List (List Char × Repl))
    (hall : allString R = true) (hx : lookupR R x = none) :
    ∀ (ms : List RMatch) (acc : Option (List Char)),
      ms.all (matchAlmost R x) = true →
      (ms.all fun m => !matchCovered R m || decide (m.matched ≠ s)) = true →
      (ms.any (matchMentions x) = true →
        grLoop (.str s) R true acc ms = .error (.keyError x)) ∧
      (ms.any (matchMentions x) = false →
        (grLoop (.str s) R true acc ms = .ok .noRepl ∨
          ∃ out, grLoop (.str s) R true acc ms = .ok (.repl (.val (.str out))))) := by
  intro ms
  induction ms with
  | nil =>
    intro acc _ _
    constructor
    · intro h; simp at h
    · intro _
      cases acc with
      | none => exact Or.inl rfl
      | some b => exact Or.inr ⟨b, rfl⟩
  | cons m ms ih =>
    intro acc halm hnwh
    rw [List.all_cons, Bool.and_eq_true] at halm hnwh
    obtain ⟨ha1, ha2⟩ := halm
    obtain ⟨hw1, hw2⟩ := hnwh
    by_cases hgx : m.group1 = some x
    · have hstep : grLoop (.str s) R true acc (m :: ms) =
          .error (.keyError x) := by
        simp [grLoop, hgx, hx]
      constructor
      · intro _; exact hstep
      · intro hany
        exfalso
        simp [List.any_cons, matchMentions, hgx] at hany
    · have hcov : matchCovered R m = true := by
        cases hg : m.group1 with
        | none => simp [matchAlmost, hg] at ha1
        | some g =>
          simp only [matchAlmost, hg, Bool.or_eq_true] at ha1
          rcases ha1 with hgx2 | hsome
          · exfalso
            exact hgx (by rw [hg]; exact congrArg _ (of_decide_eq_true hgx2))
          · simp [matchCovered, hg, hsome]
      have hmne : m.matched ≠ s := by
        rw [hcov] at hw1
        simpa using hw1
      cases hg : m.group1 with
      | none => simp [matchCovered, hg] at hcov
      | some g =>
        simp only [matchCovered, hg] at hcov
        obtain ⟨r, hr⟩ := Option.isSome_iff_exists.mp hcov
        obtain ⟨w, hw⟩ := allString_lookup hall hr
        subst hw
        have hsv : strEqVal m.matched (.str s) = false := by
          simp [strEqVal, hmne]
        have hany_cons : ∀ b : Bool,
            ((m :: ms).any (matchMentions x) = b) ↔
              (ms.any (matchMentions x) = b) := by
          intro b
          have hm : matchMentions x m = false := by
            simp [matchMentions, hgx]
          simp [List.any_cons, hm]
        cases acc with
        | none =>
          have step : grLoop (.str s) R true none (m :: ms) =
              grLoop (.str s) R true (some (listReplace m.matched w s)) ms := by
            simp [grLoop, hg, hr, hsv]
          constructor
          · intro hany
            rw [step]
            exact (ih _ ha2 hw2).1 ((hany_cons true).mp hany)
          · intro hany
            rw [step]
            exact (ih _ ha2 hw2).2 ((hany_cons false).mp hany)
        | some b =>
          have step : grLoop (.str s) R true (some b) (m :: ms) =
              grLoop (.str s) R true (some (listReplace m.matched w b)) ms := by
            simp [grLoop, hg, hr, hsv]
          constructor
          · intro hany
            rw [step]
            exact (ih _ ha2 hw2).1 ((hany_cons true).mp hany)
          · intro hany
            rw [step]
            exact (ih _ ha2 hw2).2 ((hany_cons false).mp hany)

/-- Helper: an empty boolean list test gives the empty list. -/
theorem listIsEmpty_eq_nil {α : Type} {l : List α} (h : l.isEmpty = true) :
    l = [] := by
  cases l with
  | nil => rfl
  | cons a as => simp [List.isEmpty] at h

/-- Helper: a string leaf whose resolution loop succeeds (sentinel or
string) scans to a scalar of the same shape. -/
theorem leaf_resolve (p : CompiledPattern) (R : List (List Char × Repl))
    (s : List Char)
    (h : grLoop (.str s) R true none (reFinditer p s) = .ok .noRepl ∨
      ∃ out, grLoop (.str s) R true none (reFinditer p s) =
        .ok (.repl (.val (.str out)))) :
    ∃ w, scan_node p R true (.str s) = .ok (w, []) ∧
      SameShape (.str s) w := by
  rcases h with h | ⟨out, h⟩
  · exact ⟨.str s,
      by simp [scan_node, apply_replacement, get_replacement, pyStr, h],
      SameShape.scalar rfl rfl⟩
  · exact ⟨.str out,
      by simp [scan_node, apply_replacement, get_replacement, pyStr, h],
      SameShape.scalar rfl rfl⟩

/-- Helper: a failing resolution loop propagates its error through the
scan of a string leaf. -/
theorem leaf_error (p : CompiledPattern) (R : List (List Char × Repl))
    (s : List Char) (e : Err)
    (h : grLoop (.str s) R true none (reFinditer p s) = .error e) :
    scan_node p R true (.str s) = .error e := by
  simp [scan_node, apply_replacement, get_replacement, pyStr, h]

/-- Helper: a value whose string form contains no match resolves to the
sentinel, leaving the call site untouched. -/
theorem key_noRepl (p : CompiledPattern) (R : List (List Char × Repl))
    (rom : Bool) (k : Val) (hk : scalarNoMatch p k = true) :
    apply_replacement p R k rom = .ok (none, []) := by
  rw [scalarNoMatch] at hk
  have h := listIsEmpty_eq_nil hk
  simp [apply_replacement, get_replacement, h, grLoop]

/-- Helper: a scalar leaf whose string form contains no match scans to
itself. -/
theorem leaf_nomatch (p : CompiledPattern) (R : List (List Char × Repl))
    (rom : Bool) (v : Val) (hv : scalarNoMatch p v = true)
    (hsc : isScalar v = true) :
    scan_node p R rom v = .ok (v, []) := by
  have h := key_noRepl p R rom v hv
  cases v with
  | str s => simp [scan_node, h]
  | int n => simp [scan_node, h]
  | float q => simp [scan_node, h]
  | bool b => simp [scan_node, h]
  | null => simp [scan_node, h]
  | list xs => simp [isScalar] at hsc
  | dict es => simp [isScalar] at hsc

mutual

/-- Main induction, node case: with an all-string mapping, a well-behaved
node (every placeholder covered except possibly the tracked missing
identifier, keys and non-string scalars placeholder-free) scans, under
the fail policy, to a same-shape tree with an empty callable trace when
the missing identifier does not occur, and to KeyError on that identifier
when it occurs. -/
theorem scanSpecN (p : CompiledPattern) (R : List (List Char × Repl))
    (mx : Option (List Char)) (hall : allString R = true)
    (hx : ∀ x, mx = some x → lookupR R x = none)
    (v : Val) (hok : okTN p R mx v = true) :
    ((∀ x, mx = some x → occN p x v = false) →
      ∃ w, scan_node p R true v = .ok (w, []) ∧ SameShape v w) ∧
    (∀ x, mx = some x → occN p x v = true →
      scan_node p R true v = .error (.keyError x)) := by
  cases v with
  | str s =>
    cases mx with
    | none =>
      simp only [okTN, leafOk] at hok
      rw [strLeafCov] at hok
      constructor
      · intro _
        exact leaf_resolve p R s (grLoop_covered s R hall _ none hok)
      · intro x hx0
        exact Option.noConfusion hx0
    | some x =>
      simp only [okTN, leafOk] at hok
      rw [strLeafAlmost, Bool.or_eq_true] at hok
      have hxn : lookupR R x = none := hx x rfl
      rcases hok with hcov | halm
      · rw [strLeafCov] at hcov
        have hnomention := covered_no_mentions hxn _ hcov
        constructor
        · intro _
          exact leaf_resolve p R s (grLoop_covered s R hall _ none hcov)
        · intro x0 hx0 hocc
          injection hx0 with hx0
          subst hx0
          simp only [occN] at hocc
          rw [hnomention] at hocc
          simp at hocc
      · rw [Bool.and_eq_true] at halm
        obtain ⟨h1, h2⟩ := halm
        have hboth := grLoop_almost s x R hall hxn _ none h1 h2
        constructor
        · intro hnocc
          have hno := hnocc x rfl
          simp only [occN] at hno
          exact leaf_resolve p R s (hboth.2 hno)
        · intro x0 hx0 hocc
          injection hx0 with hx0
          subst hx0
          simp only [occN] at hocc
          exact leaf_error p R s _ (hboth.1 hocc)
  | int n =>
    constructor
    · intro _
      exact ⟨.int n, leaf_nomatch p R true (.int n) hok rfl,
        SameShape.scalar rfl rfl⟩
    · intro x hx0 hocc
      simp only [occN] at hocc
      simp at hocc
  | float q =>
    constructor
    · intro _
      exact ⟨.float q, leaf_nomatch p R true (.float q) hok rfl,
        SameShape.scalar rfl rfl⟩
    · intro x hx0 hocc
      simp only [occN] at hocc
      simp at hocc
  | bool b =>
    constructor
    · intro _
      exact ⟨.bool b, leaf_nomatch p R true (.bool b) hok rfl,
        SameShape.scalar rfl rfl⟩
    · intro x hx0 hocc
      simp only [occN] at hocc
      simp at hocc
  | null =>
    constructor
    · intro _
      exact ⟨.null, leaf_nomatch p R true .null hok rfl,
        SameShape.scalar rfl rfl⟩
    · intro x hx0 hocc
      simp only [occN] at hocc
      simp at hocc
  | list xs =>
    simp only [okTN] at hok
    have hrec := scanSpecL p R mx hall hx xs hok
    constructor
    · intro hnocc
      obtain ⟨ys, hys, hsh⟩ := hrec.1 (fun x hx0 => by
        have := hnocc x hx0
        simpa only [occN] using this)
      exact ⟨.list ys, by simp [scan_node, hys], SameShape.list hsh⟩
    · intro x hx0 hocc
      simp only [occN] at hocc
      have herr := hrec.2 x hx0 hocc
      simp [scan_node, herr]
  | dict es =>
    simp only [okTN] at hok
    have hrec := scanSpecE p R mx hall hx es hok []
    constructor
    · intro hnocc
      obtain ⟨fs, hfs, hsh⟩ := hrec.1 (fun x hx0 => by
        have := hnocc x hx0
        simpa only [occN] using this)
      refine ⟨.dict fs, ?_, SameShape.dict hsh⟩
      simp [scan_node, hfs, replace_keys]
    · intro x hx0 hocc
      simp only [occN] at hocc
      have herr := hrec.2 x hx0 hocc
      simp [scan_node, herr]

/-- Main induction, list case. -/
theorem scanSpecL (p : CompiledPattern) (R : List (List Char × Repl))
    (mx : Option (List Char)) (hall : allString R = true)
    (hx : ∀ x, mx = some x → lookupR R x = none)
    (xs : List Val) (hok : okTL p R mx xs = true) :
    ((∀ x, mx = some x → occL p x xs = false) →
      ∃ ys, scan_list p R true xs = .ok (ys, []) ∧ SameShapeList xs ys) ∧
    (∀ x, mx = some x → occL p x xs = true →
      scan_list p R true xs = .error (.keyError x)) := by
  cases xs with
  | nil =>
    constructor
    · intro _
      exact ⟨[], rfl, SameShapeList.nil⟩
    · intro x hx0 hocc
      simp [occL] at hocc
  | cons v rest =>
    simp only [okTL, Bool.and_eq_true] at hok
    obtain ⟨h1, h2⟩ := hok
    have hv := scanSpecN p R mx hall hx v h1
    have hrest := scanSpecL p R mx hall hx rest h2
    constructor
    · intro hnocc
      have hnv : ∀ x, mx = some x → occN p x v = false := fun x hx0 => by
        have := hnocc x hx0
        rw [occL, Bool.or_eq_false_iff] at this
        exact this.1
      have hnr : ∀ x, mx = some x → occL p x rest = false := fun x hx0 => by
        have := hnocc x hx0
        rw [occL, Bool.or_eq_false_iff] at this
        exact this.2
      obtain ⟨y, hy, hysh⟩ := hv.1 hnv
      obtain ⟨ys, hys, hshs⟩ := hrest.1 hnr
      exact ⟨y :: ys, by simp [scan_list, hy, hys],
        SameShapeList.cons hysh hshs⟩
    · intro x hx0 hocc
      rw [occL, Bool.or_eq_true] at hocc
      cases hov : occN p x v with
      | true =>
        have herr := hv.2 x hx0 hov
        simp [scan_list, herr]
      | false =>
        have hor : occL p x rest = true := by
          rcases hocc with h | h
          · rw [hov] at h
            simp at h
          · exact h
        obtain ⟨y, hy, _⟩ := hv.1 (fun x0 hx1 => by
          rw [hx0] at hx1
          injection hx1 with hx1
          subst hx1
          exact hov)
        have herr := hrest.2 x hx0 hor
        simp [scan_list, hy, herr]

/-- Main induction, dict-entries case: keys are placeholder-free, so the
key-replacements dict is returned unchanged. -/
theorem scanSpecE (p : CompiledPattern) (R : List (List Char × Repl))
    (mx : Option (List Char)) (hall : allString R = true)
    (hx : ∀ x, mx = some x → lookupR R x = none)
    (es : List (Val × Val)) (hok : okTE p R mx es = true)
    (kr : List (Val × Val)) :
    ((∀ x, mx = some x → occE p x es = false) →
      ∃ fs, scan_entries p R true kr es = .ok (fs, kr, []) ∧
        SameShapeEntries es fs) ∧
    (∀ x, mx = some x → occE p x es = true →
      scan_entries p R true kr es = .error (.keyError x)) := by
  cases es with
  | nil =>
    constructor
    · intro _
      exact ⟨[], rfl, SameShapeEntries.nil⟩
    · intro x hx0 hocc
      simp [occE] at hocc
  | cons kv rest =>
    obtain ⟨k, v⟩ := kv
    simp only [okTE, Bool.and_eq_true] at hok
    obtain ⟨⟨hk, h1⟩, h2⟩ := hok
    have hkey := key_noRepl p R true k hk
    have hv := scanSpecN p R mx hall hx v h1
    have hrest := scanSpecE p R mx hall hx rest h2 kr
    constructor
    · intro hnocc
      have hnv : ∀ x, mx = some x → occN p x v = false := fun x hx0 => by
        have := hnocc x hx0
        rw [occE, Bool.or_eq_false_iff] at this
        exact this.1
      have hnr : ∀ x, mx = some x → occE p x rest = false := fun x hx0 => by
        have := hnocc x hx0
        rw [occE, Bool.or_eq_false_iff] at this
        exact this.2
      obtain ⟨y, hy, hysh⟩ := hv.1 hnv
      obtain ⟨fs, hfs, hshs⟩ := hrest.1 hnr
      exact ⟨(k, y) :: fs, by simp [scan_entries, hkey, hy, hfs],
        SameShapeEntries.cons hysh hshs⟩
    · intro x hx0 hocc
      rw [occE, Bool.or_eq_true] at hocc
      cases hov : occN p x v with
      | true =>
        have herr := hv.2 x hx0 hov
        simp [scan_entries, hkey, herr]
      | false =>
        have hor : occE p x rest = true := by
          rcases hocc with h | h
          · rw [hov] at h
            simp at h
          · exact h
        obtain ⟨y, hy, _⟩ := hv.1 (fun x0 hx1 => by
          rw [hx0] at hx1
          injection hx1 with hx1
          subst hx1
          exact hov)
        have herr := hrest.2 x hx0 hor
        simp [scan_entries, hkey, hy, herr]

end

/-- C7 amended: for every non-empty, finite template T (a list or dict;
finiteness and hence termination are structural in this embedding) and
every all-string replacement mapping R that covers every placeholder
identifier occurring in T — with placeholders occurring only in string
leaves: dict keys and stringified non-string scalars placeholder-free —
replace(T, R) succeeds and produces a tree of structural shape identical
to T: same object keys in the same order, same array lengths and order,
scalars in scalar positions.  (Without the all-string proviso the
original claim fails: see the counterexample, where a covering mapping
with a non-string value at a partial-token site raises TypeError and no
tree is produced.) -/
theorem c7_covered_terminates_same_shape (T : Val)
    (R : List (List Char × Repl))
    (hall : allString R = true)
    (hcov : coveredTemplate R T = true)
    (htree : isTree T = true)
    (hne : pyTruthy T = true) :
    ∃ W, replace defaultPattern T R true = .ok (W, []) ∧ SameShape T W := by
  rw [coveredTemplate] at hcov
  obtain ⟨W, hW, hsh⟩ :=
    (scanSpecN defaultPattern R none hall
      (fun x0 hx0 => Option.noConfusion hx0) T hcov).1
      (fun x0 hx0 => Option.noConfusion hx0)
  refine ⟨W, ?_, hsh⟩
  rw [replace, if_pos hne]
  cases T with
  | list xs => simpa [scan_template, deepcopy] using hW
  | dict es => simpa [scan_template, deepcopy] using hW
  | str s => simp [isTree] at htree
  | int n => simp [isTree] at htree
  | float q => simp [isTree] at htree
  | bool b => simp [isTree] at htree
  | null => simp [isTree] at htree

/-- C7 witness: a nested template (dict containing a list of dicts, a
whole-token leaf and a partial-token leaf) with a covering all-string
mapping; the theorem applies and yields a same-shape output tree. -/
theorem c7_witness :
    ∃ W, replace defaultPattern
      (.dict [(.str "k".data, .str "{{x}}".data),
              (.str "l".data,
                .list [.dict [(.str "m".data, .str "a{{x}}b".data)],
                       .int 3])])
      [("x".data, .val (.str "X".data))] true = .ok (W, []) ∧
      SameShape
        (.dict [(.str "k".data, .str "{{x}}".data),
                (.str "l".data,
                  .list [.dict [(.str "m".data, .str "a{{x}}b".data)],
                         .int 3])]) W :=
  c7_covered_terminates_same_shape
    (.dict [(.str "k".data, .str "{{x}}".data),
            (.str "l".data,
              .list [.dict [(.str "m".data, .str "a{{x}}b".data)],
                     .int 3])])
    [("x".data, .val (.str "X".data))] rfl rfl rfl rfl

/-- C7 counterexample: the claim promises a tree for every covering
mapping, but a covering mapping whose value at a partial-token site is a
non-string makes replace raise TypeError and return no tree at all. -/
theorem c7_counterexample :
    coveredTemplate [("p".data, .val (.int 5))]
      (.dict [(.str "a".data, .str "x{{p}}y".data)]) = true ∧
    replace defaultPattern
      (.dict [(.str "a".data, .str "x{{p}}y".data)])
      [("p".data, .val (.int 5))] true =
      .error .typeErrorReplaceArg :=
  ⟨rfl, rfl⟩

/-- C5 amended: for every template (list or dict, non-empty) containing a
placeholder whose identifier x has no entry in the mapping — with the
missing identifier occurring in a string leaf, every present replacement
a string, keys and non-string scalars placeholder-free, and no
whole-token early return masking the missing occurrence — the default
fail policy raises KeyError naming x and returns no tree.  Under the skip
policy (second conjunct, the example of the claim) the unresolved
occurrence keeps its literal text and all other matches are still
processed. -/
theorem c5_missing_raises_skip_preserves (x : List Char) (T : Val)
    (R : List (List Char × Repl))
    (hall : allString R = true)
    (hxn : lookupR R x = none)
    (halm : almostCoveredTemplate R x T = true)
    (hocc : occursIn x T = true)
    (htree : isTree T = true)
    (hne : pyTruthy T = true) :
    replace defaultPattern T R true = .error (.keyError x) ∧
    replace defaultPattern
      (.dict [(.str "firstname".data, .str "{{firstname}}".data),
              (.str "lastname".data, .str "{{lastname}}".data)])
      [("firstname".data, .val (.str "John".data))] false =
      .ok (.dict [(.str "firstname".data, .str "John".data),
                  (.str "lastname".data, .str "{{lastname}}".data)], []) := by
  refine ⟨?_, rfl⟩
  rw [almostCoveredTemplate] at halm
  rw [occursIn] at hocc
  have h :=
    (scanSpecN defaultPattern R (some x) hall
      (fun x0 hx0 => by
        injection hx0 with hx0
        subst hx0
        exact hxn) T halm).2 x rfl hocc
  rw [replace, if_pos hne]
  cases T with
  | list xs => simpa [scan_template, deepcopy] using h
  | dict es => simpa [scan_template, deepcopy] using h
  | str s => simp [isTree] at htree
  | int n => simp [isTree] at htree
  | float q => simp [isTree] at htree
  | bool b => simp [isTree] at htree
  | null => simp [isTree] at htree

/-- C5 counterexample: the claim says that for EVERY template containing
a placeholder whose identifier has no entry, the default policy fails
with the missing-replacement error naming that identifier.  Here "q" has
no entry and occurs in the template, but the present entry "p" (an
integer) is consumed first at a partial-token site and `str.replace`
raises TypeError (line 231) before the missing "q" is ever looked up, so
replace fails with a different error that names no identifier. -/
theorem c5_counterexample :
    lookupR [("p".data, Repl.val (.int 5))] "q".data = none ∧
    occursIn "q".data
      (.dict [(.str "a".data, .str "{{p}} {{q}}".data)]) = true ∧
    replace defaultPattern
      (.dict [(.str "a".data, .str "{{p}} {{q}}".data)])
      [("p".data, .val (.int 5))] true =
      .error .typeErrorReplaceArg :=
  ⟨rfl, rfl, rfl⟩

/-- C5 witness: the example of the claim — "lastname" has no entry, the
default policy raises KeyError naming it, and the skip policy leaves the
literal "{{lastname}}" while still replacing "firstname". -/
theorem c5_witness :
    replace defaultPattern
      (.dict [(.str "firstname".data, .str "{{firstname}}".data),
              (.str "lastname".data, .str "{{lastname}}".data)])
      [("firstname".data, .val (.str "John".data))] true =
      .error (.keyError "lastname".data) ∧
    replace defaultPattern
      (.dict [(.str "firstname".data, .str "{{firstname}}".data),
              (.str "lastname".data, .str "{{lastname}}".data)])
      [("firstname".data, .val (.str "John".data))] false =
      .ok (.dict [(.str "firstname".data, .str "John".data),
                  (.str "lastname".data, .str "{{lastname}}".data)], []) :=
  c5_missing_raises_skip_preserves "lastname".data
    (.dict [(.str "firstname".data, .str "{{firstname}}".data),
            (.str "lastname".data, .str "{{lastname}}".data)])
    [("firstname".data, .val (.str "John".data))]
    rfl rfl rfl rfl rfl rfl

end Jsoninja
